import Mathlib

/-!
# Verification of the `ymodem-send-rs` sender

A shallow embedding of `src/lib.rs` (the YMODEM sender): the CRC-16/CCITT
checksum, the frame builders `create_file_header` and `create_data_block`,
the retrying `send_packet` loop, and the full `YmodemSend::send` state
machine, together with theorems checking the specification's claims.

Bytes are modelled as `Nat` values below 256, byte strings as `List Nat`,
and the `u16` CRC register as a `Nat` kept below 2^16 by explicit `% 65536`
truncation.  Rust panics (out-of-bounds `copy_from_slice`, `.unwrap()` on a
failed transport call) are modelled as an explicit `panic` outcome, and
fallible frame construction returns `Option`.

The receiver-side helpers `rcv::wait_for_ack` and `rcv::wait_msg` are not
part of the provided sources (the `rcv` module is declared but its file is
absent); they are modelled from the spec, as marked in their doc comments.
-/

namespace YmodemSendRs

/-- `PACKET_SIZE` from the source: payload size of a YMODEM frame. -/
def PACKET_SIZE : Nat := 128

/-- `YmodemControlCode::Soh` (0x01). -/
def SOH : Nat := 0x01

/-- `YmodemControlCode::Eot` (0x04). -/
def EOT : Nat := 0x04

/-- `YmodemControlCode::Ack` (0x06). -/
def ACK : Nat := 0x06

/-- `YmodemControlCode::Nak` (0x15). -/
def NAK : Nat := 0x15

/-- `YmodemControlCode::Can` (0x18). -/
def CAN : Nat := 0x18

/-- `YmodemControlCode::C` (0x43), the ready-for-checksum-mode byte. -/
def Cbyte : Nat := 0x43

/-! ## CRC-16/CCITT (`crc16_ccitt` in the source) -/

/-- One iteration of the inner `for _ in 0..8` loop of `crc16_ccitt`:
if bit 15 of the register is set, shift left and xor the polynomial
0x1021, otherwise just shift left; the `u16` register wraps mod 2^16. -/
def crcShift (crc : Nat) : Nat :=
  if crc.testBit 15 then ((crc <<< 1) % 65536) ^^^ 0x1021
  else (crc <<< 1) % 65536

/-- One iteration of the outer `for &byte in data` loop of `crc16_ccitt`:
xor `(byte as u16) << 8` into the register, then run the 8-step inner
loop.  The `% 256` embeds the `u8` range of the byte. -/
def crcByteStep (crc b : Nat) : Nat :=
  (List.range 8).foldl (fun c _ => crcShift c) (crc ^^^ ((b % 256) <<< 8))

/-- `crc16_ccitt` from the source: register starts at 0, each input byte is
processed by `crcByteStep`. -/
def crc16_ccitt (data : List Nat) : Nat :=
  data.foldl crcByteStep 0

/-- Spec-level description of one CRC step, bit by bit: polynomial 0x1021,
most-significant-bit-first processing — the next message bit is compared
against bit 15 of the register; on mismatch the register shifts left and
xors the polynomial, otherwise it just shifts left (mod 2^16). -/
def crcSpecStep (crc : Nat) (bit : Bool) : Nat :=
  if xor (crc.testBit 15) bit then ((crc <<< 1) % 65536) ^^^ 0x1021
  else (crc <<< 1) % 65536

/-- The bits of a byte, most significant first. -/
def byteBits (b : Nat) : List Bool :=
  [b.testBit 7, b.testBit 6, b.testBit 5, b.testBit 4,
   b.testBit 3, b.testBit 2, b.testBit 1, b.testBit 0]

/-- Spec-level CRC: initial register 0, the message processed one bit at a
time, most significant bit of each byte first, no input or output
reflection and no final xor. -/
def crc16_spec (data : List Nat) : Nat :=
  ((data.map fun b => byteBits (b % 256)).flatten).foldl crcSpecStep 0

/-- The bits of `m` below position `n`, most significant first. -/
def bitsFrom (m : Nat) : Nat → List Bool
  | 0 => []
  | n + 1 => m.testBit n :: bitsFrom m n

/-! ## Frame builders -/

/-- The ASCII bytes of the decimal representation of `n`
(the embedding of Rust's `n.to_string().as_bytes()`). -/
def asciiDecimal (n : Nat) : List Nat :=
  (Nat.toDigits 10 n).map Char.toNat

/-- `YmodemSender::create_file_header`, parametrised by the filename bytes
and the file length (the source only uses `self.fdata.len()`).  The
`copy_from_slice` into the 128-byte payload buffer panics when the encoded
metadata `name ++ [0] ++ decimal-size ++ [0x20]` is longer than 128 bytes;
the panic is modelled as `none`. -/
def create_file_header (fname : List Nat) (flen : Nat) : Option (List Nat) :=
  let file_info := fname ++ [0] ++ asciiDecimal flen ++ [0x20]
  if file_info.length ≤ PACKET_SIZE then
    let block := file_info ++ List.replicate (PACKET_SIZE - file_info.length) 0
    let crc := crc16_ccitt block
    some ([SOH, 0, 255] ++ block ++ [(crc >>> 8) % 256, crc &&& 0xFF])
  else none

/-- `YmodemSender::create_data_block`.  `block_number` is a `u8`, embedded
by `% 256`; `!block_number` is the `u8` bitwise complement `^^^ 255`.  The
`copy_from_slice` of the chunk into the 128-byte payload buffer panics when
the chunk is longer than 128 bytes; the panic is modelled as `none`. -/
def create_data_block (chunk : List Nat) (block_number : Nat) :
    Option (List Nat) :=
  let bn := block_number % 256
  if chunk.length ≤ PACKET_SIZE then
    let data := chunk ++ List.replicate (PACKET_SIZE - chunk.length) 0
    let crc := crc16_ccitt data
    some ([SOH, bn, bn ^^^ 255] ++ data ++ [(crc >>> 8) % 256, crc &&& 0xFF])
  else none

/-- The consecutive `PACKET_SIZE`-byte chunks of a byte buffer, in order,
the last one possibly shorter (the embedding of
`fdata.chunks(PACKET_SIZE)`). -/
def chunks128 (l : List Nat) : List (List Nat) :=
  if h : l = [] then []
  else l.take PACKET_SIZE :: chunks128 (l.drop PACKET_SIZE)
termination_by l.length
decreasing_by
  have hpos : 0 < l.length := List.length_pos.mpr h
  simp only [List.length_drop, PACKET_SIZE]
  omega

/-- The data frames built for a list of chunks, with 0-based enumeration
starting at `idx`; each chunk `i` gets block number `(idx + i + 1) as u8`,
as in the data-phase loop of `YmodemSend::send`. -/
def dataFrames (chunks : List (List Nat)) (idx : Nat) :
    Option (List (List Nat)) :=
  match chunks with
  | [] => some []
  | c :: rest =>
    match create_data_block c ((idx + 1) % 256), dataFrames rest (idx + 1) with
    | some fr, some frs => some (fr :: frs)
    | _, _ => none

/-! ## Transport model

The serial port is modelled as a script: `input` is the byte stream the
receiver will deliver, `writes` accumulates every buffer the sender has
written, and `faults` scripts the outcome of successive transport writes
(`true` = the write primitive fails; an empty list means all further
writes succeed).  An exhausted `input` models a transport on which no
further byte ever arrives. -/

/-- `YmodemError` from the source. -/
inductive YmodemError : Type where
  | InvalidResponse : YmodemError
  | Timeout : YmodemError
  | RequestReSend : YmodemError
  | SendFailed : YmodemError
deriving DecidableEq, Repr

/-- The scripted transport state. -/
structure PortSt : Type where
  input : List Nat
  writes : List (List Nat)
  faults : List Bool
deriving DecidableEq, Repr

/-- Outcome of running a piece of the engine against the scripted
transport: a value, a typed `YmodemError`, or a Rust panic (from `.unwrap()`
on a failed transport call or an out-of-bounds copy). -/
inductive Res (α : Type) : Type where
  | ok : α → PortSt → Res α
  | err : YmodemError → PortSt → Res α
  | panic : PortSt → Res α
deriving DecidableEq, Repr

/-- Sequencing that propagates errors and panics, the embedding of Rust's
`?` operator together with panic propagation. -/
def Res.bind {α β : Type} (r : Res α) (f : α → PortSt → Res β) : Res β :=
  match r with
  | Res.ok a s => f a s
  | Res.err e s => Res.err e s
  | Res.panic s => Res.panic s

/-- `port.write_all(packet).unwrap()`: on a scripted write fault the
`Result` is an error and the `.unwrap()` panics; otherwise the packet is
appended to the write log. -/
def writeAll (packet : List Nat) (s : PortSt) : Res Unit :=
  match s.faults with
  | true :: rest => Res.panic { s with faults := rest }
  | false :: rest =>
    Res.ok () { s with faults := rest, writes := s.writes ++ [packet] }
  | [] => Res.ok () { s with writes := s.writes ++ [packet] }

/-- `port.read_exact(&mut response).unwrap()` for a single byte: reads the
next scripted byte; when no byte ever arrives the read fails (for example
with a transport timeout error) and the `.unwrap()` panics. -/
def readByte (s : PortSt) : Res Nat :=
  match s.input with
  | [] => Res.panic s
  | b :: rest => Res.ok b { s with input := rest }

/-- Modelled from the spec: `rcv::wait_for_ack` (the `rcv` module's source
file is not part of the provided sources).  §4.3 of the spec: read exactly
one byte and classify it — ACK yields `Acknowledged` (here `Except.ok`),
NAK yields `RetryRequested` (`YmodemError::RequestReSend`), and any other
byte is a protocol violation, surfaced through the `InvalidResponse` error
kind per §7 (the enum of the source has no separate `Aborted` kind for
CAN).  Per §4.3's timeout requirement, an input on which no byte arrives
yields `YmodemError::Timeout`. -/
def wait_for_ack (s : PortSt) : Except YmodemError Unit × PortSt :=
  match s.input with
  | [] => (Except.error YmodemError.Timeout, s)
  | b :: rest =>
    if b = ACK then (Except.ok (), { s with input := rest })
    else if b = NAK then
      (Except.error YmodemError.RequestReSend, { s with input := rest })
    else (Except.error YmodemError.InvalidResponse, { s with input := rest })

/-- Modelled from the spec: `rcv::wait_msg` (the `rcv` module's source
file is not part of the provided sources).  §4.3's second classifier mode:
read exactly one byte and return it; the comparison against the expected
literal happens at the call sites in `YmodemSend::send`.  Its Rust
signature returns a bare `u8` with no error channel, so an input on which
no byte arrives is modelled as the panic outcome. -/
def wait_msg (s : PortSt) : Res Nat :=
  readByte s

/-- The `while let Err(e) = rcv::wait_for_ack(..)` retry loop of
`YmodemSender::send_packet`: on `RequestReSend` the identical packet bytes
are rewritten and the classifier consulted again; any other error is
returned; acknowledgment succeeds. -/
def sendRetry (packet : List Nat) (s : PortSt) : Res Unit :=
  match h : wait_for_ack s with
  | (Except.ok _, s2) => Res.ok () s2
  | (Except.error e, s2) =>
    if he : e = YmodemError.RequestReSend then
      match h2 : writeAll packet s2 with
      | Res.ok _ s3 => sendRetry packet s3
      | Res.err e2 s3 => Res.err e2 s3
      | Res.panic s3 => Res.panic s3
    else Res.err e s2
termination_by s.input.length
decreasing_by
  subst he
  have ha : s2.input.length + 1 = s.input.length := by
    obtain ⟨inp, ws, fl⟩ := s
    cases inp with
    | nil => simp [wait_for_ack] at h
    | cons b rest =>
      simp only [wait_for_ack] at h
      by_cases hb : b = ACK
      · rw [if_pos hb] at h
        exact absurd (congrArg Prod.fst h) (by simp)
      · rw [if_neg hb] at h
        by_cases hn : b = NAK
        · rw [if_pos hn] at h
          have hsnd : ({ input := rest, writes := ws, faults := fl } : PortSt)
              = s2 := congrArg Prod.snd h
          rw [← hsnd]
          simp
        · rw [if_neg hn] at h
          exact absurd (congrArg Prod.fst h) (by simp)
  have hb : s3.input = s2.input := by
    obtain ⟨inp2, ws2, fl2⟩ := s2
    cases fl2 with
    | nil =>
      simp only [writeAll, Res.ok.injEq] at h2
      rw [← h2.2]
    | cons f rest2 =>
      cases f
      · simp only [writeAll, Res.ok.injEq] at h2
        rw [← h2.2]
      · simp [writeAll] at h2
  rw [hb]
  omega

/-- `YmodemSender::send_packet`: write the packet, then run the
acknowledgment/retry loop. -/
def send_packet (packet : List Nat) (s : PortSt) : Res Unit :=
  match writeAll packet s with
  | Res.ok _ s2 => sendRetry packet s2
  | Res.err e s2 => Res.err e s2
  | Res.panic s2 => Res.panic s2

/-- The initial `loop { port.read_exact(..).unwrap(); if response[0] == C
{ break } }` of `YmodemSend::send`: discard bytes until a `'C'` arrives. -/
def awaitC (s : PortSt) : Res Unit :=
  match h : readByte s with
  | Res.ok b s2 => if b = Cbyte then Res.ok () s2 else awaitC s2
  | Res.err e s2 => Res.err e s2
  | Res.panic s2 => Res.panic s2
termination_by s.input.length
decreasing_by
  have ha : s2.input.length + 1 = s.input.length := by
    obtain ⟨inp, ws, fl⟩ := s
    cases inp with
    | nil => simp [readByte] at h
    | cons c rest =>
      simp only [readByte, Res.ok.injEq] at h
      rw [← h.2]
      simp
  omega

/-- The data-phase loop of `YmodemSend::send`: for each chunk, in order,
build the data block with block number `(index + 1) as u8` and send it
with retry. -/
def sendChunks (chunks : List (List Nat)) (idx : Nat) (s : PortSt) :
    Res Unit :=
  match chunks with
  | [] => Res.ok () s
  | c :: rest =>
    match create_data_block c ((idx + 1) % 256) with
    | none => Res.panic s
    | some frame =>
      Res.bind (send_packet frame s) fun _ s2 => sendChunks rest (idx + 1) s2

/-- The frame value produced by `create_data_block` for a fitting chunk
(used to state the engine-level theorems). -/
def frameFor (c : List Nat) (bn : Nat) : List Nat :=
  [SOH, bn % 256, (bn % 256) ^^^ 255]
    ++ (c ++ List.replicate (128 - c.length) 0)
    ++ [crc16_ccitt (c ++ List.replicate (128 - c.length) 0) / 256,
        crc16_ccitt (c ++ List.replicate (128 - c.length) 0) % 256]

/-- The data frames the engine writes for a chunk list, with 0-based
enumeration starting at `idx`. -/
def framesOf : List (List Nat) → Nat → List (List Nat)
  | [], _ => []
  | c :: cs, idx => frameFor c ((idx + 1) % 256) :: framesOf cs (idx + 1)

/-- The frame value produced by `create_file_header` when the metadata
fits. -/
def headerFrame (fname : List Nat) (flen : Nat) : List Nat :=
  [SOH, 0, 255]
    ++ ((fname ++ [0] ++ asciiDecimal flen ++ [0x20])
        ++ List.replicate
            (128 - (fname.length + (asciiDecimal flen).length + 2)) 0)
    ++ [crc16_ccitt ((fname ++ [0] ++ asciiDecimal flen ++ [0x20])
          ++ List.replicate
              (128 - (fname.length + (asciiDecimal flen).length + 2)) 0)
          / 256,
        crc16_ccitt ((fname ++ [0] ++ asciiDecimal flen ++ [0x20])
          ++ List.replicate
              (128 - (fname.length + (asciiDecimal flen).length + 2)) 0)
          % 256]

/-- The byte script of a fully cooperative receiver for a transfer with
`n` data chunks: ready byte, header ack, `'C'`, one ACK per data frame,
EOT ack, `'C'`, termination ack. -/
def happyScript (n : Nat) : List Nat :=
  [Cbyte, ACK, Cbyte] ++ List.replicate n ACK ++ [ACK, Cbyte, ACK]

/-- `YmodemSend::send` for `YmodemSender { fname, fdata }`: await the
ready byte, send the header with retry, require a `'C'` ack, stream the
data frames, send EOT with retry, require a `'C'` ack, send the
terminating all-zero block with retry. -/
def send (fname fdata : List Nat) (s : PortSt) : Res Unit :=
  Res.bind (awaitC s) fun _ s1 =>
  match create_file_header fname fdata.length with
  | none => Res.panic s1
  | some file_header =>
    Res.bind (send_packet file_header s1) fun _ s2 =>
    Res.bind (wait_msg s2) fun b s3 =>
    if b ≠ Cbyte then Res.err YmodemError.InvalidResponse s3
    else
      Res.bind (sendChunks (chunks128 fdata) 0 s3) fun _ s4 =>
      Res.bind (send_packet [EOT] s4) fun _ s5 =>
      Res.bind (wait_msg s5) fun b2 s6 =>
      if b2 ≠ Cbyte then Res.err YmodemError.InvalidResponse s6
      else
        match create_data_block (List.replicate PACKET_SIZE 0) 0 with
        | none => Res.panic s6
        | some term_block => send_packet term_block s6

/-! ### CRC lemmas -/

theorem xor_poly_lt {x : Nat} (hx : x < 65536) : x ^^^ 0x1021 < 65536 := by
  have h16 : (65536 : Nat) = 2 ^ 16 := by norm_num
  rw [h16]
  exact Nat.xor_lt_two_pow (h16 ▸ hx) (by norm_num)

theorem crcShift_lt (c : Nat) : crcShift c < 65536 := by
  unfold crcShift
  split
  · exact xor_poly_lt (Nat.mod_lt _ (by norm_num))
  · exact Nat.mod_lt _ (by norm_num)

theorem crcSpecStep_lt (c : Nat) (bit : Bool) : crcSpecStep c bit < 65536 := by
  unfold crcSpecStep
  split
  · exact xor_poly_lt (Nat.mod_lt _ (by norm_num))
  · exact Nat.mod_lt _ (by norm_num)

theorem shiftLeft_xor_distrib (a b n : Nat) :
    (a ^^^ b) <<< n = (a <<< n) ^^^ (b <<< n) := by
  apply Nat.eq_of_testBit_eq
  intro i
  simp only [Nat.testBit_shiftLeft, Nat.testBit_xor]
  cases h : decide (i ≥ n) <;> simp

theorem mod_two_pow_xor (a b n : Nat) :
    (a ^^^ b) % 2 ^ n = (a % 2 ^ n) ^^^ (b % 2 ^ n) := by
  apply Nat.eq_of_testBit_eq
  intro i
  simp only [Nat.testBit_mod_two_pow, Nat.testBit_xor]
  cases h : decide (i < n) <;> simp

/-- One `crcShift` step on a register of the form
`s ^^^ (pending message bits shifted into the top)` peels off message bit
`n` and performs the corresponding spec-level bit step. -/
theorem crcShift_step (s m n : Nat) (hn : n < 8) :
    crcShift (s ^^^ ((m <<< (16 - (n + 1))) % 65536)) =
    crcSpecStep s (m.testBit n) ^^^ ((m <<< (16 - n)) % 65536) := by
  have h16 : (65536 : Nat) = 2 ^ 16 := by norm_num
  have hj : 16 - (n + 1) = 15 - n := by omega
  rw [hj]
  have htb : ((m <<< (15 - n)) % 65536).testBit 15 = m.testBit n := by
    have hd : 15 - (15 - n) = n := by omega
    rw [h16, Nat.testBit_mod_two_pow, Nat.testBit_shiftLeft, hd]
    simp [Nat.sub_le]
  have hmsg : (((m <<< (15 - n)) % 65536) <<< 1) % 65536
      = (m <<< (16 - n)) % 65536 := by
    rw [Nat.shiftLeft_eq, Nat.shiftLeft_eq, Nat.shiftLeft_eq, h16,
      Nat.mod_mul_mod, Nat.mul_assoc, ← Nat.pow_succ]
    have he : (15 - n).succ = 16 - n := by omega
    rw [he]
  have hsh : ((s ^^^ ((m <<< (15 - n)) % 65536)) <<< 1) % 65536
      = ((s <<< 1) % 65536) ^^^ ((m <<< (16 - n)) % 65536) := by
    rw [shiftLeft_xor_distrib, h16, mod_two_pow_xor, ← h16, hmsg]
  unfold crcShift crcSpecStep
  rw [Nat.testBit_xor, htb]
  by_cases hc : (s.testBit 15 ^^ m.testBit n) = true
  · rw [if_pos hc, if_pos hc, hsh, Nat.xor_assoc,
      Nat.xor_comm ((m <<< (16 - n)) % 65536) 0x1021, ← Nat.xor_assoc]
  · rw [if_neg hc, if_neg hc, hsh]

/-- Iterating `crcShift` `n ≤ 8` times on `s ^^^ (pending bits)` performs
the `n` most significant spec-level bit steps. -/
theorem iter_shift (m : Nat) :
    ∀ n : Nat, n ≤ 8 → ∀ s : Nat,
      crcShift^[n] (s ^^^ ((m <<< (16 - n)) % 65536)) =
      (bitsFrom m n).foldl crcSpecStep s := by
  intro n
  induction n with
  | zero =>
    intro _ s
    simp [bitsFrom, Nat.shiftLeft_eq, Nat.mul_mod_left]
  | succ n ih =>
    intro hn s
    rw [Function.iterate_succ_apply, crcShift_step s m n (by omega),
      ih (by omega)]
    rfl

/-- The byte-at-a-time loop body of `crc16_ccitt` agrees with eight
most-significant-bit-first spec-level steps. -/
theorem crcByteStep_eq_bits (s b : Nat) :
    crcByteStep s b = (byteBits (b % 256)).foldl crcSpecStep s := by
  have hm : b % 256 < 256 := Nat.mod_lt _ (by norm_num)
  have hlt : (b % 256) <<< (16 - 8) < 65536 := by
    rw [Nat.shiftLeft_eq]
    have : (16 - 8 : Nat) = 8 := by norm_num
    rw [this]
    have h8 : (2 : Nat) ^ 8 = 256 := by norm_num
    rw [h8]
    omega
  have h1 : crcByteStep s b
      = crcShift^[8] (s ^^^ (((b % 256) <<< (16 - 8)) % 65536)) := by
    rw [Nat.mod_eq_of_lt hlt]
    rfl
  rw [h1, iter_shift (b % 256) 8 (by norm_num) s]
  rfl

/-- Folding the byte-level CRC over a message agrees with folding the
spec-level bit CRC over the message's bit stream, from any start state. -/
theorem crc_fold (data : List Nat) :
    ∀ s : Nat, data.foldl crcByteStep s =
      ((data.map fun b => byteBits (b % 256)).flatten).foldl crcSpecStep s := by
  induction data with
  | nil => intro s; rfl
  | cons b rest ih =>
    intro s
    simp only [List.foldl_cons, List.map_cons, List.flatten_cons,
      List.foldl_append]
    rw [crcByteStep_eq_bits, ih]

/-! ## Frame builder lemmas -/

theorem crcByteStep_lt (s b : Nat) : crcByteStep s b < 65536 := by
  show crcShift^[8] (s ^^^ ((b % 256) <<< 8)) < 65536
  rw [show (8 : Nat) = 7 + 1 from rfl, Function.iterate_succ_apply']
  exact crcShift_lt _

theorem foldl_crcByteStep_lt (l : List Nat) :
    ∀ s : Nat, s < 65536 → l.foldl crcByteStep s < 65536 := by
  induction l with
  | nil => intro s hs; exact hs
  | cons b rest ih => intro s _; exact ih _ (crcByteStep_lt s b)

theorem crc16_ccitt_lt (data : List Nat) : crc16_ccitt data < 65536 :=
  foldl_crcByteStep_lt data 0 (by norm_num)

theorem and_255_eq_mod (x : Nat) : x &&& 255 = x % 256 := by
  have h : (255 : Nat) = 2 ^ 8 - 1 := by norm_num
  rw [h, Nat.and_pow_two_sub_one_eq_mod]

theorem shiftRight8_mod (x : Nat) (hx : x < 65536) :
    (x >>> 8) % 256 = x / 256 := by
  rw [Nat.shiftRight_eq_div_pow]
  have h8 : (2 : Nat) ^ 8 = 256 := by norm_num
  rw [h8]
  have hlt : x / 256 < 256 := by
    rw [Nat.div_lt_iff_lt_mul (by norm_num : (0 : Nat) < 256)]
    omega
  exact Nat.mod_eq_of_lt hlt

set_option maxRecDepth 4096 in
/-- `u8` bitwise complement equals `255 - n` for byte values. -/
theorem u8_not (n : Nat) (h : n < 256) : n ^^^ 255 = 255 - n := by
  have hall : ∀ m : Fin 256, m.val ^^^ 255 = 255 - m.val := by decide
  exact hall ⟨n, h⟩

theorem payload_length (c : List Nat) (h : c.length ≤ 128) :
    (c ++ List.replicate (128 - c.length) 0).length = 128 := by
  simp
  omega

/-- Closed form of `create_data_block` on a chunk that fits the payload. -/
theorem create_data_block_some (c : List Nat) (n : Nat)
    (h : c.length ≤ 128) :
    create_data_block c n =
      some ([SOH, n % 256, (n % 256) ^^^ 255]
        ++ (c ++ List.replicate (128 - c.length) 0)
        ++ [crc16_ccitt (c ++ List.replicate (128 - c.length) 0) / 256,
            crc16_ccitt (c ++ List.replicate (128 - c.length) 0) % 256]) := by
  have hcrc := crc16_ccitt_lt (c ++ List.replicate (128 - c.length) 0)
  simp only [create_data_block, PACKET_SIZE]
  rw [if_pos h, shiftRight8_mod _ hcrc, and_255_eq_mod]

/-- Length of the encoded file metadata `name ++ [0] ++ size ++ [0x20]`. -/
theorem fileInfo_length (fname : List Nat) (flen : Nat) :
    (fname ++ [0] ++ asciiDecimal flen ++ [0x20]).length
      = fname.length + (asciiDecimal flen).length + 2 := by
  simp
  omega

/-- Closed form of `create_file_header` when the metadata fits. -/
theorem create_file_header_some (fname : List Nat) (flen : Nat)
    (hfit : fname.length + (asciiDecimal flen).length + 2 ≤ 128) :
    create_file_header fname flen =
      some ([SOH, 0, 255]
        ++ ((fname ++ [0] ++ asciiDecimal flen ++ [0x20])
            ++ List.replicate
                (128 - (fname.length + (asciiDecimal flen).length + 2)) 0)
        ++ [crc16_ccitt ((fname ++ [0] ++ asciiDecimal flen ++ [0x20])
              ++ List.replicate
                  (128 - (fname.length + (asciiDecimal flen).length + 2)) 0)
              / 256,
            crc16_ccitt ((fname ++ [0] ++ asciiDecimal flen ++ [0x20])
              ++ List.replicate
                  (128 - (fname.length + (asciiDecimal flen).length + 2)) 0)
              % 256]) := by
  have hfi := fileInfo_length fname flen
  simp only [create_file_header, PACKET_SIZE]
  rw [hfi, if_pos hfit]
  have hcrc := crc16_ccitt_lt
    ((fname ++ [0] ++ asciiDecimal flen ++ [0x20])
      ++ List.replicate (128 - (fname.length + (asciiDecimal flen).length + 2)) 0)
  rw [shiftRight8_mod _ hcrc, and_255_eq_mod]

/-! ## Claim C1 -/

theorem crc_zero_buffer (n : Nat) :
    (List.replicate n 0).foldl crcByteStep 0 = 0 := by
  induction n with
  | zero => rfl
  | succ n ih =>
    rw [List.replicate_succ, List.foldl_cons]
    have h0 : crcByteStep 0 0 = 0 := by decide
    rw [h0, ih]

/-- C1: `crc16_ccitt` computes the 16-bit CRC with polynomial 0x1021,
initial register 0, most-significant-bit-first processing, no input or
output reflection and no final xor (it agrees with the bit-level spec CRC
`crc16_spec` on every byte sequence), and on a 128-byte all-zero buffer it
returns the reference value 0x0000. -/
theorem claim_crc16_ccitt_correct (data : List Nat) :
    crc16_ccitt data = crc16_spec data ∧
      crc16_ccitt (List.replicate 128 0) = 0 :=
  ⟨crc_fold data 0, crc_zero_buffer 128⟩

/-! ## Claims C2 and C10 -/

/-- `create_file_header` hits the out-of-bounds copy (modelled as `none`)
whenever the encoded metadata does not fit the 128-byte payload. -/
theorem create_file_header_none (fname : List Nat) (flen : Nat)
    (h : ¬(fname.length + (asciiDecimal flen).length + 2 ≤ 128)) :
    create_file_header fname flen = none := by
  have hfi := fileInfo_length fname flen
  simp only [create_file_header, PACKET_SIZE]
  rw [hfi, if_neg h]

/-- C2 counterexample: for a 127-byte filename and size 0 the encoded
metadata is 130 bytes, the copy into the 128-byte payload buffer is out of
bounds, and `create_file_header` panics (modelled as `none`) instead of
producing a 133-byte frame — so the claim does not hold for *every*
filename and size. -/
theorem claim_create_file_header_overflow :
    create_file_header (List.replicate 127 97) 0 = none := by
  have ha : (asciiDecimal 0).length = 1 := by decide
  apply create_file_header_none
  rw [List.length_replicate, ha]
  omega

/-- C2 (amended): for every filename and size whose encoded metadata
`name ++ NUL ++ decimal size ++ SPACE` fits in the 128-byte payload,
`create_file_header` produces a frame of exactly 133 bytes: byte 0 = SOH
(0x01), byte 1 = 0x00, byte 2 = 0xFF, then the 128-byte zero-padded
metadata payload, then the two checksum bytes of the payload, high byte
first. -/
theorem claim_create_file_header_shape (fname : List Nat) (flen : Nat)
    (hfit : fname.length + (asciiDecimal flen).length + 2 ≤ 128) :
    ∃ pay : List Nat,
      pay = (fname ++ [0] ++ asciiDecimal flen ++ [0x20])
          ++ List.replicate
              (128 - (fname.length + (asciiDecimal flen).length + 2)) 0 ∧
      pay.length = 128 ∧
      create_file_header fname flen
        = some ([SOH, 0, 0xFF] ++ pay
            ++ [crc16_ccitt pay / 256, crc16_ccitt pay % 256]) ∧
      ([SOH, 0, 0xFF] ++ pay
          ++ [crc16_ccitt pay / 256, crc16_ccitt pay % 256]).length = 133 := by
  refine ⟨_, rfl, ?_, create_file_header_some fname flen hfit, ?_⟩
  · rw [List.length_append, fileInfo_length, List.length_replicate]
    omega
  · rw [List.length_append, List.length_append, List.length_append,
      fileInfo_length, List.length_replicate]
    simp
    omega

/-- C2 witness: a concrete filename and size satisfying the fit
precondition, with the amended shape theorem applied to it. -/
theorem claim_create_file_header_shape_witness :
    ([104, 105].length + (asciiDecimal 3).length + 2 ≤ 128) ∧
      (∃ pay : List Nat,
        pay = ([104, 105] ++ [0] ++ asciiDecimal 3 ++ [0x20])
            ++ List.replicate
                (128 - ([104, 105].length + (asciiDecimal 3).length + 2)) 0 ∧
        pay.length = 128 ∧
        create_file_header [104, 105] 3
          = some ([SOH, 0, 0xFF] ++ pay
              ++ [crc16_ccitt pay / 256, crc16_ccitt pay % 256]) ∧
        ([SOH, 0, 0xFF] ++ pay
            ++ [crc16_ccitt pay / 256, crc16_ccitt pay % 256]).length = 133) :=
  ⟨by decide, claim_create_file_header_shape [104, 105] 3 (by decide)⟩

/-- C10: `create_file_header` panics (modelled as `none`) exactly when the
filename length plus the number of decimal digits of the size plus 2
exceeds 128; under the complementary precondition the copy is in bounds
and a frame is produced. -/
theorem claim_create_file_header_none_iff (fname : List Nat) (flen : Nat) :
    create_file_header fname flen = none ↔
      128 < fname.length + (asciiDecimal flen).length + 2 := by
  have hfi := fileInfo_length fname flen
  simp only [create_file_header, PACKET_SIZE]
  rw [hfi]
  by_cases hc : fname.length + (asciiDecimal flen).length + 2 ≤ 128
  · rw [if_pos hc]
    simp
    omega
  · rw [if_neg hc]
    simp
    omega

/-! ## Claim C3 -/

/-- C3: for every chunk of at most 128 bytes and sequence number
1 ≤ n ≤ 255, `create_data_block` yields a 133-byte frame `SOH`, `n`,
`255 - n` (the `u8` complement), the chunk zero-padded to 128 bytes, and
the payload checksum serialized high byte first. -/
theorem claim_create_data_block_shape (chunk : List Nat) (n : Nat)
    (hlen : chunk.length ≤ 128) (h1 : 1 ≤ n) (h2 : n ≤ 255) :
    ∃ frame, create_data_block chunk n = some frame ∧
      frame.length = 133 ∧
      frame = [SOH, n, 255 - n]
        ++ (chunk ++ List.replicate (128 - chunk.length) 0)
        ++ [crc16_ccitt (chunk ++ List.replicate (128 - chunk.length) 0) / 256,
            crc16_ccitt (chunk ++ List.replicate (128 - chunk.length) 0)
              % 256] := by
  have hn : n % 256 = n := Nat.mod_eq_of_lt (by omega)
  have hx : n ^^^ 255 = 255 - n := u8_not n (by omega)
  refine ⟨_, ?_, ?_, rfl⟩
  · rw [create_data_block_some chunk n hlen, hn, hx]
  · rw [List.length_append, List.length_append, payload_length chunk hlen]
    simp

/-- C3 witness: the shape theorem applied to the chunk `[1, 2, 3]` and
sequence number 7. -/
theorem claim_create_data_block_shape_witness :
    (([1, 2, 3] : List Nat).length ≤ 128 ∧ 1 ≤ 7 ∧ 7 ≤ 255) ∧
      (∃ frame, create_data_block [1, 2, 3] 7 = some frame ∧
        frame.length = 133 ∧
        frame = [SOH, 7, 255 - 7]
          ++ ([1, 2, 3] ++ List.replicate (128 - ([1, 2, 3] : List Nat).length) 0)
          ++ [crc16_ccitt ([1, 2, 3]
                ++ List.replicate (128 - ([1, 2, 3] : List Nat).length) 0) / 256,
              crc16_ccitt ([1, 2, 3]
                ++ List.replicate (128 - ([1, 2, 3] : List Nat).length) 0)
                % 256]) :=
  ⟨⟨by decide, by decide, by decide⟩,
    claim_create_data_block_shape [1, 2, 3] 7 (by decide) (by decide)
      (by decide)⟩

/-! ## Engine step lemmas -/

theorem sendRetry_timeout (p : List Nat) (ws : List (List Nat))
    (fl : List Bool) :
    sendRetry p ⟨[], ws, fl⟩ = Res.err YmodemError.Timeout ⟨[], ws, fl⟩ := by
  rw [sendRetry.eq_def]
  simp [wait_for_ack]

theorem sendRetry_ack (p : List Nat) (r : List Nat) (ws : List (List Nat))
    (fl : List Bool) :
    sendRetry p ⟨ACK :: r, ws, fl⟩ = Res.ok () ⟨r, ws, fl⟩ := by
  rw [sendRetry.eq_def]
  simp [wait_for_ack]

theorem sendRetry_nak (p : List Nat) (r : List Nat) (ws : List (List Nat)) :
    sendRetry p ⟨NAK :: r, ws, []⟩ = sendRetry p ⟨r, ws ++ [p], []⟩ := by
  rw [sendRetry.eq_def]
  simp [wait_for_ack, writeAll, ACK, NAK]

theorem sendRetry_other (p : List Nat) (b : Nat) (r : List Nat)
    (ws : List (List Nat)) (fl : List Bool) (hb1 : b ≠ ACK) (hb2 : b ≠ NAK) :
    sendRetry p ⟨b :: r, ws, fl⟩
      = Res.err YmodemError.InvalidResponse ⟨r, ws, fl⟩ := by
  have hw : wait_for_ack ⟨b :: r, ws, fl⟩
      = (Except.error YmodemError.InvalidResponse, ⟨r, ws, fl⟩) := by
    simp [wait_for_ack, hb1, hb2]
  rw [sendRetry.eq_def]
  split
  · next a s2 heq =>
    rw [hw] at heq
    exact absurd (congrArg Prod.fst heq) (by simp)
  · next e s2 heq =>
    rw [hw] at heq
    have h1 : YmodemError.InvalidResponse = e := by
      have := congrArg Prod.fst heq
      simpa using this
    have h2 : ({ input := r, writes := ws, faults := fl } : PortSt) = s2 :=
      congrArg Prod.snd heq
    rw [← h1, ← h2]
    simp

/-- Closed form of the retry loop on a fault-free transport: the loop
rewrites the identical packet once per leading NAK, then acknowledges on
ACK, fails with `InvalidResponse` on any other byte, and times out when
the script is exhausted; `RequestReSend` never escapes. -/
theorem sendRetry_run (p : List Nat) :
    ∀ (inp : List Nat) (ws : List (List Nat)),
      sendRetry p ⟨inp, ws, []⟩ =
        (match inp.dropWhile (fun x => x == NAK) with
         | [] => Res.err YmodemError.Timeout
             ⟨[], ws ++ List.replicate
                 (inp.takeWhile (fun x => x == NAK)).length p, []⟩
         | b :: r =>
           if b = ACK then Res.ok ()
               ⟨r, ws ++ List.replicate
                   (inp.takeWhile (fun x => x == NAK)).length p, []⟩
           else Res.err YmodemError.InvalidResponse
               ⟨r, ws ++ List.replicate
                   (inp.takeWhile (fun x => x == NAK)).length p, []⟩) := by
  intro inp
  induction inp with
  | nil =>
    intro ws
    rw [sendRetry_timeout]
    simp
  | cons b r ih =>
    intro ws
    by_cases hn : b = NAK
    · subst hn
      rw [sendRetry_nak, ih (ws ++ [p])]
      have hpred : ((NAK : Nat) == NAK) = true := by decide
      simp only [List.dropWhile_cons, List.takeWhile_cons, hpred, if_true]
      cases hdrop : r.dropWhile (fun x => x == NAK) with
      | nil =>
        simp [List.replicate_succ]
      | cons c cs =>
        by_cases hc : c = ACK <;>
          simp [hc, List.replicate_succ]
    · have hpred : ((b : Nat) == NAK) = false := by
        simp [hn]
      by_cases ha : b = ACK
      · subst ha
        rw [sendRetry_ack]
        simp [hpred]
      · rw [sendRetry_other p b r ws [] ha hn]
        simp [hpred, ha]

/-- `send_packet` on a fault-free transport first writes the packet, then
runs the retry loop. -/
theorem send_packet_run (p : List Nat) (inp : List Nat)
    (ws : List (List Nat)) :
    send_packet p ⟨inp, ws, []⟩ = sendRetry p ⟨inp, ws ++ [p], []⟩ := by
  simp [send_packet, writeAll]

/-- `send_packet` when the first scripted byte is an ACK. -/
theorem send_packet_ack_first (p : List Nat) (r : List Nat)
    (ws : List (List Nat)) :
    send_packet p ⟨ACK :: r, ws, []⟩ = Res.ok () ⟨r, ws ++ [p], []⟩ := by
  rw [send_packet_run, sendRetry_ack]

/-! ## Claim C5 -/

/-- C5: `send_packet` never returns `RequestReSend`: its result is the
closed form of the retry loop — one initial write plus one identical
rewrite per leading NAK in the script, success on ACK, the classifier's
other errors returned unchanged and immediately, timeout on an exhausted
script — and no error outcome is `RequestReSend`. -/
theorem claim_send_packet_retry (packet : List Nat) (s : PortSt)
    (hf : s.faults = []) :
    (send_packet packet s =
      (match s.input.dropWhile (fun x => x == NAK) with
       | [] => Res.err YmodemError.Timeout
           ⟨[], s.writes ++ List.replicate
               ((s.input.takeWhile (fun x => x == NAK)).length + 1) packet, []⟩
       | b :: r =>
         if b = ACK then Res.ok ()
             ⟨r, s.writes ++ List.replicate
                 ((s.input.takeWhile (fun x => x == NAK)).length + 1) packet,
               []⟩
         else Res.err YmodemError.InvalidResponse
             ⟨r, s.writes ++ List.replicate
                 ((s.input.takeWhile (fun x => x == NAK)).length + 1) packet,
               []⟩)) ∧
    ∀ (e : YmodemError) (s2 : PortSt),
      send_packet packet s = Res.err e s2 → e ≠ YmodemError.RequestReSend := by
  obtain ⟨inp, ws, fl⟩ := s
  subst hf
  have hrun : send_packet packet ⟨inp, ws, []⟩ =
      sendRetry packet ⟨inp, ws ++ [packet], []⟩ := send_packet_run _ _ _
  have hmain : send_packet packet (⟨inp, ws, []⟩ : PortSt) =
      (match inp.dropWhile (fun x => x == NAK) with
       | [] => Res.err YmodemError.Timeout
           ⟨[], ws ++ List.replicate
               ((inp.takeWhile (fun x => x == NAK)).length + 1) packet, []⟩
       | b :: r =>
         if b = ACK then Res.ok ()
             ⟨r, ws ++ List.replicate
                 ((inp.takeWhile (fun x => x == NAK)).length + 1) packet, []⟩
         else Res.err YmodemError.InvalidResponse
             ⟨r, ws ++ List.replicate
                 ((inp.takeWhile (fun x => x == NAK)).length + 1) packet,
               []⟩) := by
    rw [hrun, sendRetry_run]
    cases hdrop : inp.dropWhile (fun x => x == NAK) with
    | nil => simp [List.replicate_succ]
    | cons c cs =>
      by_cases hc : c = ACK <;>
        simp [hc, List.replicate_succ]
  refine ⟨hmain, ?_⟩
  intro e s2 he
  rw [hmain] at he
  cases hdrop : inp.dropWhile (fun x => x == NAK) with
  | nil =>
    rw [hdrop] at he
    simp at he
    obtain ⟨he1, -⟩ := he
    rw [← he1]
    decide
  | cons c cs =>
    rw [hdrop] at he
    by_cases hc : c = ACK
    · subst hc
      simp at he
    · simp [hc] at he
      obtain ⟨he1, -⟩ := he
      rw [← he1]
      decide

/-- C5 witness: on the script NAK, ACK the packet is written twice (the
identical bytes) and the call succeeds. -/
theorem claim_send_packet_retry_witness :
    send_packet [1, 2] ⟨[NAK, ACK], [], []⟩
      = Res.ok () ⟨[], [[1, 2], [1, 2]], []⟩ := by
  have h := claim_send_packet_retry [1, 2] ⟨[NAK, ACK], [], []⟩ rfl
  rw [h.1]
  rfl

/-! ## Claim C4 -/

theorem chunks128_nil : chunks128 [] = [] := by
  rw [chunks128.eq_def]
  simp

theorem chunks128_cons (l : List Nat) (h : l ≠ []) :
    chunks128 l = l.take PACKET_SIZE :: chunks128 (l.drop PACKET_SIZE) := by
  rw [chunks128.eq_def]
  rw [dif_neg h]

theorem create_data_block_eq_frameFor (c : List Nat) (n : Nat)
    (h : c.length ≤ 128) : create_data_block c n = some (frameFor c n) :=
  create_data_block_some c n h

theorem take_128_append (pay tail : List Nat) (hp : pay.length = 128) :
    (pay ++ tail).take 128 = pay := by
  rw [← hp, List.take_left]

/-- Bytes 3..131 of a data frame are exactly the zero-padded chunk. -/
theorem frameFor_payload (c : List Nat) (bn : Nat) (h : c.length ≤ 128) :
    ((frameFor c bn).drop 3).take 128
      = c ++ List.replicate (128 - c.length) 0 := by
  have hcons : frameFor c bn
      = SOH :: (bn % 256) :: ((bn % 256) ^^^ 255)
        :: ((c ++ List.replicate (128 - c.length) 0)
          ++ [crc16_ccitt (c ++ List.replicate (128 - c.length) 0) / 256,
              crc16_ccitt (c ++ List.replicate (128 - c.length) 0) % 256]) :=
    rfl
  rw [hcons]
  have hdrop : (SOH :: (bn % 256) :: ((bn % 256) ^^^ 255)
      :: ((c ++ List.replicate (128 - c.length) 0)
        ++ [crc16_ccitt (c ++ List.replicate (128 - c.length) 0) / 256,
            crc16_ccitt (c ++ List.replicate (128 - c.length) 0) % 256])).drop 3
      = (c ++ List.replicate (128 - c.length) 0)
        ++ [crc16_ccitt (c ++ List.replicate (128 - c.length) 0) / 256,
            crc16_ccitt (c ++ List.replicate (128 - c.length) 0) % 256] := rfl
  rw [hdrop, take_128_append _ _ (payload_length c h)]

theorem round_trip_aux :
    ∀ (n : Nat) (l : List Nat), l.length ≤ n → ∀ idx : Nat,
      ∃ frames, dataFrames (chunks128 l) idx = some frames ∧
        ((frames.map fun fr => (fr.drop 3).take 128).flatten).take l.length
          = l := by
  intro n
  induction n with
  | zero =>
    intro l hl idx
    have h0 : l = [] := by
      cases l with
      | nil => rfl
      | cons a t => simp at hl
    subst h0
    exact ⟨[], by rw [chunks128_nil]; rfl, rfl⟩
  | succ n ih =>
    intro l hl idx
    by_cases h0 : l = []
    · subst h0
      exact ⟨[], by rw [chunks128_nil]; rfl, rfl⟩
    · have hpos : 0 < l.length := List.length_pos.mpr h0
      have htake_le : (l.take 128).length ≤ 128 := by
        simp [List.length_take]
      obtain ⟨frames', hf', hcat'⟩ :=
        ih (l.drop 128) (by simp [List.length_drop]; omega) (idx + 1)
      refine ⟨frameFor (l.take 128) ((idx + 1) % 256) :: frames', ?_, ?_⟩
      · rw [chunks128_cons l h0]
        show dataFrames (l.take PACKET_SIZE :: chunks128 (l.drop PACKET_SIZE))
            idx = _
        simp only [dataFrames, PACKET_SIZE]
        rw [create_data_block_eq_frameFor _ _ htake_le, hf']
      · simp only [List.map_cons, List.flatten_cons]
        rw [frameFor_payload _ _ htake_le]
        by_cases hlen : l.length ≤ 128
        · have htake : l.take 128 = l := List.take_of_length_le hlen
          have hdrop : l.drop 128 = [] := List.drop_eq_nil_of_le hlen
          rw [hdrop, chunks128_nil] at hf'
          have hfr : frames' = [] := by
            simp only [dataFrames, Option.some.injEq] at hf'
            exact hf'.symm
          subst hfr
          rw [htake]
          simp only [List.map_nil, List.flatten_nil, List.append_nil]
          rw [List.take_append_eq_append_take,
            List.take_of_length_le (le_refl l.length)]
          simp
        · have hlen128 : (l.take 128).length = 128 := by
            simp [List.length_take]
            omega
          rw [hlen128]
          have hrep : List.replicate (128 - 128) (0 : Nat) = [] := rfl
          rw [hrep, List.append_nil]
          rw [List.take_append_eq_append_take, hlen128]
          rw [List.take_of_length_le (by rw [hlen128]; omega)]
          have hdl : (l.drop 128).length = l.length - 128 := by
            simp [List.length_drop]
          rw [← hdl, hcat']
          exact List.take_append_drop 128 l

/-- C4: splitting any buffer into consecutive 128-byte chunks, framing
each chunk with `create_data_block`, concatenating the 128-byte payloads
(bytes 3..131) of the frames in order and truncating to the original
length reproduces the buffer exactly; no chunk is truncated in framing. -/
theorem claim_round_trip (l : List Nat) :
    ∃ frames, dataFrames (chunks128 l) 0 = some frames ∧
      ((frames.map fun fr => (fr.drop 3).take 128).flatten).take l.length
        = l :=
  round_trip_aux l.length l (le_refl _) 0

/-! ## Full transfer lemmas -/

theorem awaitC_panic (ws : List (List Nat)) (fl : List Bool) :
    awaitC ⟨[], ws, fl⟩ = Res.panic ⟨[], ws, fl⟩ := by
  rw [awaitC.eq_def]
  simp [readByte]

theorem awaitC_C (r : List Nat) (ws : List (List Nat)) (fl : List Bool) :
    awaitC ⟨Cbyte :: r, ws, fl⟩ = Res.ok () ⟨r, ws, fl⟩ := by
  rw [awaitC.eq_def]
  simp [readByte]

theorem wait_msg_cons (b : Nat) (r : List Nat) (ws : List (List Nat))
    (fl : List Bool) :
    wait_msg ⟨b :: r, ws, fl⟩ = Res.ok b ⟨r, ws, fl⟩ := by
  simp [wait_msg, readByte]

theorem create_file_header_eq_headerFrame (fname : List Nat) (flen : Nat)
    (hfit : fname.length + (asciiDecimal flen).length + 2 ≤ 128) :
    create_file_header fname flen = some (headerFrame fname flen) :=
  create_file_header_some fname flen hfit

/-- Every chunk produced by `chunks128` fits the 128-byte payload. -/
theorem chunks128_le_aux :
    ∀ (n : Nat) (l : List Nat), l.length ≤ n →
      ∀ c ∈ chunks128 l, c.length ≤ 128 := by
  intro n
  induction n with
  | zero =>
    intro l hl c hc
    have h0 : l = [] := by
      cases l with
      | nil => rfl
      | cons a t => simp at hl
    subst h0
    rw [chunks128_nil] at hc
    simp at hc
  | succ n ih =>
    intro l hl c hc
    by_cases h0 : l = []
    · subst h0
      rw [chunks128_nil] at hc
      simp at hc
    · have hpos : 0 < l.length := List.length_pos.mpr h0
      rw [chunks128_cons l h0] at hc
      simp only [PACKET_SIZE] at hc
      rcases List.mem_cons.mp hc with hceq | hcmem
      · subst hceq
        simp [List.length_take]
      · exact ih (l.drop 128) (by simp [List.length_drop]; omega) c hcmem

theorem chunks128_le (l : List Nat) :
    ∀ c ∈ chunks128 l, c.length ≤ 128 :=
  chunks128_le_aux l.length l (le_refl _)

/-- The data-phase loop against a receiver that ACKs every frame: all
frames are written in order and the trailing script is untouched. -/
theorem sendChunks_happy :
    ∀ (chunks : List (List Nat)) (idx : Nat) (rest : List Nat)
      (ws : List (List Nat)),
      (∀ c ∈ chunks, c.length ≤ 128) →
      sendChunks chunks idx
          ⟨List.replicate chunks.length ACK ++ rest, ws, []⟩
        = Res.ok () ⟨rest, ws ++ framesOf chunks idx, []⟩ := by
  intro chunks
  induction chunks with
  | nil =>
    intro idx rest ws _
    simp [sendChunks, framesOf]
  | cons c cs ih =>
    intro idx rest ws hle
    have hc : c.length ≤ 128 := hle c (List.mem_cons_self c cs)
    have hcs : ∀ x ∈ cs, x.length ≤ 128 := fun x hx =>
      hle x (List.mem_cons_of_mem c hx)
    simp only [sendChunks,
      create_data_block_eq_frameFor c ((idx + 1) % 256) hc]
    have hscript : List.replicate (c :: cs).length ACK ++ rest
        = ACK :: (List.replicate cs.length ACK ++ rest) := by
      simp [List.replicate_succ]
    rw [hscript, send_packet_ack_first]
    simp only [Res.bind]
    rw [ih (idx + 1) rest (ws ++ [frameFor c ((idx + 1) % 256)]) hcs]
    simp [framesOf]

/-- Running the full transfer against a fully cooperative receiver: the
writes are the header frame, the data frames in order, the single EOT
byte, and the terminating frame. -/
theorem send_happy (fname fdata : List Nat)
    (hfit : fname.length + (asciiDecimal fdata.length).length + 2 ≤ 128) :
    send fname fdata ⟨happyScript (chunks128 fdata).length, [], []⟩
      = Res.ok () ⟨[],
          headerFrame fname fdata.length
            :: (framesOf (chunks128 fdata) 0
              ++ [[EOT], frameFor (List.replicate 128 0) 0]), []⟩ := by
  have hterm : create_data_block (List.replicate PACKET_SIZE 0) 0
      = some (frameFor (List.replicate 128 0) 0) :=
    create_data_block_eq_frameFor (List.replicate 128 0) 0 (by simp)
  have hs : happyScript (chunks128 fdata).length
      = Cbyte :: ACK :: Cbyte
        :: (List.replicate (chunks128 fdata).length ACK
          ++ [ACK, Cbyte, ACK]) := by
    simp [happyScript]
  rw [hs]
  unfold send
  rw [awaitC_C]
  simp only [Res.bind]
  rw [create_file_header_eq_headerFrame fname fdata.length hfit]
  simp only []
  rw [send_packet_ack_first]
  simp only [Res.bind, List.nil_append]
  rw [wait_msg_cons]
  simp only [Res.bind]
  rw [if_neg (by simp : ¬(Cbyte ≠ Cbyte))]
  rw [sendChunks_happy (chunks128 fdata) 0 [ACK, Cbyte, ACK]
    [headerFrame fname fdata.length] (chunks128_le fdata)]
  simp only [Res.bind]
  rw [send_packet_ack_first]
  simp only [Res.bind]
  rw [wait_msg_cons]
  simp only [Res.bind]
  rw [if_neg (by simp : ¬(Cbyte ≠ Cbyte))]
  rw [hterm]
  simp only []
  rw [send_packet_ack_first]
  simp [List.append_assoc]

/-! ## Claim C7 -/

theorem framesOf_length :
    ∀ (chunks : List (List Nat)) (idx : Nat),
      (framesOf chunks idx).length = chunks.length := by
  intro chunks
  induction chunks with
  | nil => intro idx; rfl
  | cons c cs ih =>
    intro idx
    simp [framesOf, ih (idx + 1)]

theorem framesOf_getD :
    ∀ (chunks : List (List Nat)) (idx i : Nat), i < chunks.length →
      (framesOf chunks idx).getD i []
        = frameFor (chunks.getD i []) ((idx + i + 1) % 256) := by
  intro chunks
  induction chunks with
  | nil =>
    intro idx i hi
    simp at hi
  | cons c cs ih =>
    intro idx i hi
    cases i with
    | zero => rfl
    | succ i =>
      rw [show framesOf (c :: cs) idx
          = frameFor c ((idx + 1) % 256) :: framesOf cs (idx + 1) from rfl]
      rw [List.getD_cons_succ, List.getD_cons_succ]
      rw [ih (idx + 1) i (by simpa using hi)]
      have harith : idx + 1 + i + 1 = idx + (i + 1) + 1 := by omega
      rw [harith]

theorem frameFor_seqByte (c : List Nat) (bn : Nat) :
    (frameFor c bn).getD 1 999 = bn % 256 := rfl

theorem headerFrame_seqByte (fname : List Nat) (flen : Nat) :
    (headerFrame fname flen).getD 1 999 = 0 := rfl

/-- C7: during a transfer (against a cooperative receiver) the k-th chunk
(1-based, in file order) is carried by the (k+1)-th write, whose sequence
byte is `k % 256`; the header frame (first write) has sequence byte 0, the
EOT is a bare single byte, and the terminating frame written after the EOT
acknowledgment has sequence byte 0 and an all-zero 128-byte payload. -/
theorem claim_send_sequence_numbers (fname fdata : List Nat)
    (hfit : fname.length + (asciiDecimal fdata.length).length + 2 ≤ 128) :
    ∃ ws : List (List Nat),
      send fname fdata ⟨happyScript (chunks128 fdata).length, [], []⟩
        = Res.ok () ⟨[], ws, []⟩ ∧
      ws.length = (chunks128 fdata).length + 3 ∧
      (ws.getD 0 []).getD 1 999 = 0 ∧
      (∀ i, i < (chunks128 fdata).length →
        (ws.getD (i + 1) []).getD 1 999 = (i + 1) % 256 ∧
        ((ws.getD (i + 1) []).drop 3).take 128
          = (chunks128 fdata).getD i []
            ++ List.replicate (128 - ((chunks128 fdata).getD i []).length) 0) ∧
      ws.getD ((chunks128 fdata).length + 1) [] = [EOT] ∧
      (ws.getD ((chunks128 fdata).length + 2) []).getD 1 999 = 0 ∧
      ((ws.getD ((chunks128 fdata).length + 2) []).drop 3).take 128
        = List.replicate 128 0 := by
  refine ⟨headerFrame fname fdata.length
      :: (framesOf (chunks128 fdata) 0
        ++ [[EOT], frameFor (List.replicate 128 0) 0]),
    send_happy fname fdata hfit, ?_, headerFrame_seqByte fname fdata.length,
    ?_, ?_, ?_, ?_⟩
  · simp [framesOf_length]
  · intro i hi
    have hilen : i < (framesOf (chunks128 fdata) 0).length := by
      rw [framesOf_length]
      exact hi
    have hgd : (headerFrame fname fdata.length
          :: (framesOf (chunks128 fdata) 0
            ++ [[EOT], frameFor (List.replicate 128 0) 0])).getD (i + 1) []
        = frameFor ((chunks128 fdata).getD i []) ((i + 1) % 256) := by
      rw [List.getD_cons_succ,
        List.getD_append _ _ _ _ hilen,
        framesOf_getD (chunks128 fdata) 0 i hi]
      have : 0 + i + 1 = i + 1 := by omega
      rw [this]
    rw [hgd]
    refine ⟨by rw [frameFor_seqByte]; omega, ?_⟩
    have hmem : (chunks128 fdata).getD i [] ∈ chunks128 fdata := by
      rw [List.getD_eq_getElem (chunks128 fdata) [] hi]
      exact List.getElem_mem hi
    exact frameFor_payload _ _ (chunks128_le fdata _ hmem)
  · rw [List.getD_cons_succ,
      List.getD_append_right _ _ _ _ (framesOf_length (chunks128 fdata) 0).le,
      framesOf_length]
    simp
  · rw [List.getD_cons_succ,
      List.getD_append_right _ _ _ _
        (by rw [framesOf_length]; omega), framesOf_length]
    have hone : (chunks128 fdata).length + 1 - (chunks128 fdata).length
        = 1 := by omega
    rw [hone]
    rfl
  · rw [List.getD_cons_succ,
      List.getD_append_right _ _ _ _
        (by rw [framesOf_length]; omega), framesOf_length]
    have hone : (chunks128 fdata).length + 1 - (chunks128 fdata).length
        = 1 := by omega
    rw [hone]
    rw [show ([[EOT], frameFor (List.replicate 128 0) 0].getD 1 [])
        = frameFor (List.replicate 128 0) 0 from rfl]
    rw [frameFor_payload _ _ (by simp)]
    simp

/-- C7 witness: the sequence-number theorem applied to the transfer of the
three-byte file `abc` under the name `hi`. -/
theorem claim_send_sequence_numbers_witness :
    (([104, 105] : List Nat).length
        + (asciiDecimal ([97, 98, 99] : List Nat).length).length + 2 ≤ 128) ∧
    (∃ ws : List (List Nat),
      send [104, 105] [97, 98, 99]
          ⟨happyScript (chunks128 [97, 98, 99]).length, [], []⟩
        = Res.ok () ⟨[], ws, []⟩ ∧
      ws.length = (chunks128 [97, 98, 99]).length + 3 ∧
      (ws.getD 0 []).getD 1 999 = 0 ∧
      (∀ i, i < (chunks128 [97, 98, 99]).length →
        (ws.getD (i + 1) []).getD 1 999 = (i + 1) % 256 ∧
        ((ws.getD (i + 1) []).drop 3).take 128
          = (chunks128 [97, 98, 99]).getD i []
            ++ List.replicate
                (128 - ((chunks128 [97, 98, 99]).getD i []).length) 0) ∧
      ws.getD ((chunks128 [97, 98, 99]).length + 1) [] = [EOT] ∧
      (ws.getD ((chunks128 [97, 98, 99]).length + 2) []).getD 1 999 = 0 ∧
      ((ws.getD ((chunks128 [97, 98, 99]).length + 2) []).drop 3).take 128
        = List.replicate 128 0) :=
  ⟨by decide, claim_send_sequence_numbers [104, 105] [97, 98, 99] (by decide)⟩

/-! ## Claim C8 -/

/-- C8: after the header frame is acknowledged, and again after the EOT is
acknowledged, the engine reads exactly one byte; any byte other than `'C'`
fails the whole transfer with `InvalidResponse` immediately — no retry, no
further frames (the write log stops at the header frame, resp. at the
EOT). -/
theorem claim_ack_checks_fail_hard (fname fdata : List Nat) (b : Nat)
    (hfit : fname.length + (asciiDecimal fdata.length).length + 2 ≤ 128)
    (hb : b ≠ Cbyte) :
    send fname fdata ⟨[Cbyte, ACK, b], [], []⟩
      = Res.err YmodemError.InvalidResponse
          ⟨[], [headerFrame fname fdata.length], []⟩ ∧
    send fname fdata
        ⟨[Cbyte, ACK, Cbyte]
          ++ List.replicate (chunks128 fdata).length ACK ++ [ACK, b], [], []⟩
      = Res.err YmodemError.InvalidResponse
          ⟨[], headerFrame fname fdata.length
            :: (framesOf (chunks128 fdata) 0 ++ [[EOT]]), []⟩ := by
  constructor
  · unfold send
    rw [awaitC_C]
    simp only [Res.bind]
    rw [create_file_header_eq_headerFrame fname fdata.length hfit]
    simp only []
    rw [send_packet_ack_first]
    simp only [Res.bind, List.nil_append]
    rw [wait_msg_cons]
    simp only [Res.bind]
    rw [if_pos hb]
  · have hs : ([Cbyte, ACK, Cbyte]
        ++ List.replicate (chunks128 fdata).length ACK ++ [ACK, b] : List Nat)
        = Cbyte :: ACK :: Cbyte
          :: (List.replicate (chunks128 fdata).length ACK ++ [ACK, b]) := by
      simp
    rw [hs]
    unfold send
    rw [awaitC_C]
    simp only [Res.bind]
    rw [create_file_header_eq_headerFrame fname fdata.length hfit]
    simp only []
    rw [send_packet_ack_first]
    simp only [Res.bind, List.nil_append]
    rw [wait_msg_cons]
    simp only [Res.bind]
    rw [if_neg (by simp : ¬(Cbyte ≠ Cbyte))]
    rw [sendChunks_happy (chunks128 fdata) 0 [ACK, b]
      [headerFrame fname fdata.length] (chunks128_le fdata)]
    simp only [Res.bind]
    rw [send_packet_ack_first]
    simp only [Res.bind]
    rw [wait_msg_cons]
    simp only [Res.bind]
    rw [if_pos hb]
    simp [List.append_assoc]

/-- C8 witness: the theorem applied to the file `abc` with the offending
ack byte being ACK (0x06), which is not `'C'`. -/
theorem claim_ack_checks_fail_hard_witness :
    ((([104, 105] : List Nat).length
        + (asciiDecimal ([97, 98, 99] : List Nat).length).length + 2 ≤ 128)
      ∧ (ACK : Nat) ≠ Cbyte) ∧
    (send [104, 105] [97, 98, 99] ⟨[Cbyte, ACK, ACK], [], []⟩
      = Res.err YmodemError.InvalidResponse
          ⟨[], [headerFrame [104, 105] ([97, 98, 99] : List Nat).length], []⟩ ∧
    send [104, 105] [97, 98, 99]
        ⟨[Cbyte, ACK, Cbyte]
          ++ List.replicate (chunks128 [97, 98, 99]).length ACK
          ++ [ACK, ACK], [], []⟩
      = Res.err YmodemError.InvalidResponse
          ⟨[], headerFrame [104, 105] ([97, 98, 99] : List Nat).length
            :: (framesOf (chunks128 [97, 98, 99]) 0 ++ [[EOT]]), []⟩) :=
  ⟨⟨by decide, by decide⟩,
    claim_ack_checks_fail_hard [104, 105] [97, 98, 99] ACK (by decide)
      (by decide)⟩

/-! ## Claim C6 -/

/-- C6: the code violates the claim.  When the transport write primitive
fails on the very first frame, `send` does not return a typed
`SendFailed`/`Timeout` error — the `.unwrap()` on `write_all` panics, i.e.
the process is terminated (the `Res.panic` outcome), and no `Res.err`
value is ever produced on this run. -/
theorem claim_write_failure_panics :
    send [104] [49] ⟨[Cbyte], [], [true]⟩ = Res.panic ⟨[], [], []⟩ ∧
    ∀ (e : YmodemError) (s2 : PortSt),
      send [104] [49] ⟨[Cbyte], [], [true]⟩ ≠ Res.err e s2 := by
  have h1 : send [104] [49] ⟨[Cbyte], [], [true]⟩ = Res.panic ⟨[], [], []⟩ := by
    unfold send
    rw [awaitC_C]
    simp only [Res.bind]
    rw [create_file_header_eq_headerFrame [104] ([49] : List Nat).length
      (by decide)]
    simp only []
    rw [show send_packet (headerFrame [104] ([49] : List Nat).length)
        ⟨[], [], [true]⟩ = Res.panic ⟨[], [], []⟩ from by
      simp [send_packet, writeAll]]
  refine ⟨h1, ?_⟩
  intro e s2 h
  rw [h1] at h
  exact absurd h (by simp)

/-! ## Claim C9 -/

/-- C9: the code violates the claim.  The engine's reads are not bounded
by a timeout that yields `YmodemError::Timeout`: on a transport where no
byte ever arrives, the initial wait for the ready byte `'C'`
(`port.read_exact(..).unwrap()`) panics on the failed read instead of
returning `Res.err YmodemError.Timeout`. -/
theorem claim_reads_never_yield_timeout :
    send [104] [49] ⟨[], [], []⟩ = Res.panic ⟨[], [], []⟩ ∧
    ∀ s2 : PortSt,
      send [104] [49] ⟨[], [], []⟩ ≠ Res.err YmodemError.Timeout s2 := by
  have h1 : send [104] [49] ⟨[], [], []⟩ = Res.panic ⟨[], [], []⟩ := by
    unfold send
    rw [awaitC_panic]
    simp only [Res.bind]
  refine ⟨h1, ?_⟩
  intro s2 h
  rw [h1] at h
  exact absurd h (by simp)

end YmodemSendRs
